import Mathlib

/-!
Shallow embedding of the database test-harness code of this repository
(the `db.js` / `helper.js` modules embedded in the tutorial article):

* `dbUrl`, `clientCache` / `createClient`  — the connection manager,
* `insertResource`, `dropResourceCollections`, `aggregate` — the helpers.

JavaScript objects used as string-keyed maps are modelled as association
lists (`objGet` / `objSet`, with `objSet` overriding an existing key, which
matches JS property assignment and object-spread semantics).  The external
MongoDB driver is modelled as an environment: an oracle deciding whether a
given `MongoClient.connect` attempt succeeds, an oracle deciding whether a
`dropCollection` succeeds, and a black-box pipeline executor.  Object
identity of JS values (which literal allocation a handle came from) is
modelled by tagging each allocated handle object with a fresh numeric id.
-/

set_option autoImplicit false

namespace Blog

/-- A JavaScript value, as far as the harness code inspects one: the option
maps and documents only ever carry booleans and strings in this code. -/
inductive JsVal where
  | vBool : Bool → JsVal
  | vStr : String → JsVal
deriving DecidableEq, Repr

/-- A JS object used as a string-keyed map: an association list. -/
abbrev JsObj (α : Type) : Type := List (String × α)

/-- Property read `o[k]`: first matching key (our `objSet` keeps keys unique,
so first-match and last-set agree). `none` models `undefined`. -/
def objGet {α : Type} : JsObj α → String → Option α
  | [], _ => none
  | (k', v') :: rest, k => if k' = k then some v' else objGet rest k

/-- Property write `o[k] = v` (also one step of an object-literal spread):
overrides the value at `k` when present, appends the entry otherwise. -/
def objSet {α : Type} : JsObj α → String → α → JsObj α
  | [], k, v => [(k, v)]
  | (k', v') :: rest, k, v =>
    if k' = k then (k, v) :: rest else (k', v') :: objSet rest k v

/-- `const dbUrl = process.env.DB_URL || 'mongodb://localhost:27017/maxfitness';`
The environment variable is `none` when unset; JS `||` falls through to the
default on any falsy value, and the only falsy string is the empty string. -/
def dbUrl (envDbUrl : Option String) : String :=
  match envDbUrl with
  | some u => if u = "" then "mongodb://localhost:27017/maxfitness" else u
  | none => "mongodb://localhost:27017/maxfitness"

/-- `const connectionOpts = { ...options, useNewUrlParser: true,
useUnifiedTopology: true };` — the caller's options are spread first, then
the two protocol keys are assigned, overriding any caller entry for them. -/
def connectionOpts (options : JsObj JsVal) : JsObj JsVal :=
  objSet (objSet options "useNewUrlParser" (JsVal.vBool true))
    "useUnifiedTopology" (JsVal.vBool true)

/-- The `{ client, db }` pair built by `createClient`.  `objId` records which
object literal allocation this value is (JS reference identity); `client`
is the id of the underlying network session, and `db` the id of the logical
database obtained from `client.db()`. -/
structure Handle where
  objId : Nat
  client : Nat
  db : Nat
deriving DecidableEq, Repr

/-- One invocation of `MongoClient.connect`: the url and merged options it
was called with, and whether it succeeded (opened a session). -/
structure ConnAttempt where
  url : String
  opts : JsObj JsVal
  ok : Bool
deriving DecidableEq, Repr

/-- The module-level mutable state of `db.js` plus the allocation counters
and the log of driver calls that make side effects observable. -/
structure ConnState where
  clientCache : JsObj Handle
  nextObj : Nat
  nextSession : Nat
  connectLog : List ConnAttempt
deriving DecidableEq, Repr

/-- The state at process start: `const clientCache = {};`, nothing
allocated, no driver call made yet. -/
def initState : ConnState :=
  { clientCache := [], nextObj := 0, nextSession := 0, connectLog := [] }

/-- The external MongoDB driver: `connectOk n url` decides whether the
`n`-th `MongoClient.connect` call of the process (counting from 0), made
with address `url`, succeeds. -/
structure ConnEnv where
  connectOk : Nat → String → Bool

/-- `async function createClient(url, options)`.  Computes the merged
`connectionOpts`, returns the cached `{ client, db }` unchanged on a cache
hit; on a miss it awaits `MongoClient.connect` — a failure propagates with
the cache untouched — then selects the database, stores one fresh
`{ client, db }` literal in the cache and returns a second fresh literal
with the same `client` and `db`. -/
def createClient (env : ConnEnv) (s : ConnState) (url : String)
    (options : JsObj JsVal) : Except String Handle × ConnState :=
  let cacheKey := url
  let opts := connectionOpts options
  match objGet s.clientCache cacheKey with
  | some h => (Except.ok h, s)
  | none =>
    if env.connectOk s.connectLog.length url then
      let client := s.nextSession
      let db := client
      let cached : Handle := ⟨s.nextObj, client, db⟩
      let returned : Handle := ⟨s.nextObj + 1, client, db⟩
      (Except.ok returned,
        { clientCache := objSet s.clientCache cacheKey cached,
          nextObj := s.nextObj + 2,
          nextSession := s.nextSession + 1,
          connectLog := s.connectLog ++ [⟨url, opts, true⟩] })
    else
      (Except.error url,
        { s with connectLog := s.connectLog ++ [⟨url, opts, false⟩] })

/-- Run a sequence of `createClient` calls, threading the module state
(one single logical flow, each call awaited before the next begins). -/
def runCreateClients (env : ConnEnv) (s : ConnState) :
    List (String × JsObj JsVal) → ConnState
  | [] => s
  | (url, opts) :: rest => runCreateClients env (createClient env s url opts).2 rest

/-- Number of sessions opened for address `u`: successful
`MongoClient.connect` calls with that url. -/
def sessionsOpened (s : ConnState) (u : String) : Nat :=
  (s.connectLog.filter (fun a => a.url == u && a.ok)).length

/-- Number of `MongoClient.connect` calls made with address `u`,
successful or not. -/
def connectCallsFor (s : ConnState) (u : String) : Nat :=
  (s.connectLog.filter (fun a => a.url == u)).length

/-- The keys currently present in the connection cache. -/
def cacheKeys (s : ConnState) : List String :=
  s.clientCache.map Prod.fst

/-- A document: an arbitrary field-to-value mapping. -/
abbrev Document : Type := JsObj JsVal

/-- The `resource` argument of `insertResource`: `Array.isArray` dispatches
on whether it is an array of documents or a single document. -/
inductive Resource where
  | single : Document → Resource
  | array : List Document → Resource
deriving DecidableEq, Repr

/-- A driver insert call issued by `insertResource`. -/
inductive InsertOp where
  | insertMany : String → List Document → InsertOp
  | insertOne : String → Document → InsertOp
deriving DecidableEq, Repr

/-- The visible contents of the database: collection name to its documents. -/
abbrev DbData : Type := JsObj (List Document)

/-- The documents currently in collection `c` (a collection never written
is indistinguishable from an empty one). -/
def collGet (db : DbData) (c : String) : List Document :=
  (objGet db c).getD []

/-- Append documents to collection `c` (the driver stores inserted
documents in insertion order). -/
def collApp (db : DbData) (c : String) (ds : List Document) : DbData :=
  objSet db c (collGet db c ++ ds)

/-- `async function insertResource(db, collectionName, resource)`: if the
resource is an array, one awaited `insertMany` with the whole array;
otherwise one awaited `insertOne`.  Returns the database contents after the
awaited insert completes, together with the driver calls issued. -/
def insertResource (db : DbData) (collectionName : String) (resource : Resource) :
    DbData × List InsertOp :=
  match resource with
  | Resource.array ds =>
    (collApp db collectionName ds, [InsertOp.insertMany collectionName ds])
  | Resource.single d =>
    (collApp db collectionName [d], [InsertOp.insertOne collectionName d])

/-- The external driver's `dropCollection`: decides whether dropping the
named collection succeeds. -/
structure DropEnv where
  dropOk : String → Bool

/-- `async function dropResourceCollections(db, collections)`: a `for-of`
loop awaiting `db.dropCollection(collection)` for each name in order.  A
rejected drop makes the whole function reject at once, so the loop body of
later names never runs.  The second component lists the collections whose
drop completed, in completion order. -/
def dropResourceCollections (env : DropEnv) :
    List String → Except String Unit × List String
  | [] => (Except.ok (), [])
  | c :: rest =>
    if env.dropOk c then
      let r := dropResourceCollections env rest
      (r.1, c :: r.2)
    else
      (Except.error c, [])

/-- An aggregation pipeline: an ordered sequence of stages, opaque to this
code and passed through unmodified. -/
abbrev Pipeline : Type := List JsVal

/-- The external query engine: executing a pipeline against a named
collection either fails or yields a cursor over a finite sequence of
documents, in an order the engine owns. -/
structure AggEnv where
  runPipeline : String → Pipeline → Except String (List Document)

/-- The iteration performed by the cursor's `toArray()`: drain the cursor
document by document into an accumulator, then reverse. -/
def toArrayLoop (acc : List Document) : List Document → List Document
  | [] => acc.reverse
  | d :: ds => toArrayLoop (d :: acc) ds

/-- `async function aggregate(db, collectionName, pipeline)`: run the
pipeline through the engine and materialize the resulting cursor with
`toArray()`; a rejected execution propagates unchanged. -/
def aggregate (db : AggEnv) (collectionName : String) (pipeline : Pipeline) :
    Except String (List Document) :=
  match db.runPipeline collectionName pipeline with
  | Except.error e => Except.error e
  | Except.ok cursor => Except.ok (toArrayLoop [] cursor)

/-! ### Association-list lemmas shared by the proofs -/

theorem objGet_objSet_self {α : Type} (o : JsObj α) (k : String) (v : α) :
    objGet (objSet o k v) k = some v := by
  induction o with
  | nil => simp [objSet, objGet]
  | cons p rest ih =>
    by_cases h : p.1 = k
    · simp [objSet, objGet, h]
    · simp [objSet, objGet, h, ih]

theorem objGet_objSet_other {α : Type} (o : JsObj α) (k k' : String) (v : α)
    (h : k' ≠ k) : objGet (objSet o k v) k' = objGet o k' := by
  induction o with
  | nil => simp [objSet, objGet, Ne.symm h]
  | cons p rest ih =>
    by_cases hp : p.1 = k
    · subst hp
      simp [objSet, objGet, Ne.symm h]
    · by_cases hp' : p.1 = k'
      · simp [objSet, objGet, hp, hp', h]
      · simp [objSet, objGet, hp, hp', ih]

theorem objGet_none_not_mem {α : Type} (o : JsObj α) (k : String)
    (h : objGet o k = none) : k ∉ o.map Prod.fst := by
  induction o with
  | nil => simp
  | cons p rest ih =>
    by_cases hp : p.1 = k
    · simp [objGet, hp] at h
    · simp only [objGet, hp, if_false] at h
      simpa [hp, Ne.symm hp] using ih h

theorem objSet_keys_of_none {α : Type} (o : JsObj α) (k : String) (v : α)
    (h : objGet o k = none) :
    (objSet o k v).map Prod.fst = o.map Prod.fst ++ [k] := by
  induction o with
  | nil => simp [objSet]
  | cons p rest ih =>
    by_cases hp : p.1 = k
    · simp [objGet, hp] at h
    · simp only [objGet, hp, if_false] at h
      simp [objSet, hp, ih h]

theorem collGet_collApp (db : DbData) (c : String) (ds : List Document) :
    collGet (collApp db c ds) c = collGet db c ++ ds := by
  simp [collGet, collApp, objGet_objSet_self]

/-! ### C5, C10 — resource insertion -/

/-- C5: `insertResource` with an array inserts all documents through a
single `insertMany` call carrying the whole sequence (after which the
collection holds the previous documents plus exactly the N new ones), and
with a single document it issues exactly one `insertOne`; the returned
database contents already reflect the awaited insert. -/
theorem insertResource_spec (db : DbData) (coll : String) :
    (∀ ds : List Document,
      insertResource db coll (Resource.array ds)
        = (collApp db coll ds, [InsertOp.insertMany coll ds]) ∧
      (collGet (insertResource db coll (Resource.array ds)).1 coll).length
        = (collGet db coll).length + ds.length) ∧
    ∀ d : Document,
      insertResource db coll (Resource.single d)
        = (collApp db coll [d], [InsertOp.insertOne coll d]) := by
  refine ⟨fun ds => ⟨rfl, ?_⟩, fun d => rfl⟩
  simp [insertResource, collGet_collApp]

/-- C10: the dispatch of `insertResource` looks only at array-ness, never at
length: the empty array still produces exactly one `insertMany` call with
zero documents — not a no-op and not an `insertOne`. -/
theorem insertResource_empty_array (db : DbData) (coll : String) :
    (insertResource db coll (Resource.array [])).2
      = [InsertOp.insertMany coll []] ∧
    ∀ ds : List Document,
      (insertResource db coll (Resource.array ds)).2
        = [InsertOp.insertMany coll ds] :=
  ⟨rfl, fun _ => rfl⟩

/-! ### C6 — the merged connection options -/

/-- C6 counterexample: a caller-supplied entry for a recognized protocol key
does not survive into the merged result — the spread places the caller's
options first, so `useNewUrlParser: true` overrides the caller's `false`,
refuting "caller-supplied entries act as overrides of the defaults". -/
theorem connectionOpts_counterexample :
    objGet [("useNewUrlParser", JsVal.vBool false)] "useNewUrlParser"
      = some (JsVal.vBool false) ∧
    objGet (connectionOpts [("useNewUrlParser", JsVal.vBool false)])
      "useNewUrlParser" = some (JsVal.vBool true) := by
  constructor <;> rfl

/-- C6 amended: the merged configuration is the caller's options with the
two protocol keys `useNewUrlParser` and `useUnifiedTopology` forced to
`true` — the protocol defaults override any caller entry for those two
keys, while every other caller-supplied entry is preserved unchanged. -/
theorem connectionOpts_spec (options : JsObj JsVal) :
    objGet (connectionOpts options) "useNewUrlParser"
      = some (JsVal.vBool true) ∧
    objGet (connectionOpts options) "useUnifiedTopology"
      = some (JsVal.vBool true) ∧
    ∀ k : String, k ≠ "useNewUrlParser" → k ≠ "useUnifiedTopology" →
      objGet (connectionOpts options) k = objGet options k := by
  refine ⟨?_, ?_, fun k h1 h2 => ?_⟩
  · rw [connectionOpts, objGet_objSet_other _ _ _ _ (by decide),
      objGet_objSet_self]
  · rw [connectionOpts, objGet_objSet_self]
  · rw [connectionOpts, objGet_objSet_other _ _ _ _ h2,
      objGet_objSet_other _ _ _ _ h1]

/-- Concrete instance of `connectionOpts_spec`: an unrecognized caller key
passes through while the protocol keys are set. -/
theorem connectionOpts_spec_witness :
    objGet (connectionOpts [("appname", JsVal.vStr "maxfitness")])
      "useNewUrlParser" = some (JsVal.vBool true) ∧
    objGet (connectionOpts [("appname", JsVal.vStr "maxfitness")])
      "appname" = some (JsVal.vStr "maxfitness") :=
  ⟨(connectionOpts_spec [("appname", JsVal.vStr "maxfitness")]).1,
    ((connectionOpts_spec [("appname", JsVal.vStr "maxfitness")]).2.2
      "appname" (by decide) (by decide)).trans (by rfl)⟩

/-! ### C7 — the database address -/

/-- C7 counterexample: with `DB_URL` present but holding the empty string,
the address is the local default, not the environment value — `||`
discards any falsy value, so "whenever that variable is present" fails. -/
theorem dbUrl_counterexample :
    dbUrl (some "") = "mongodb://localhost:27017/maxfitness" ∧
    dbUrl (some "") ≠ "" := by
  constructor <;> decide

/-- C7 amended: the address is the value of `DB_URL` whenever that variable
is present with a non-empty (truthy) value; when it is unset, or set to the
empty string, the fixed local default is used. -/
theorem dbUrl_spec :
    (∀ v : String, v ≠ "" → dbUrl (some v) = v) ∧
    dbUrl none = "mongodb://localhost:27017/maxfitness" ∧
    dbUrl (some "") = "mongodb://localhost:27017/maxfitness" := by
  refine ⟨fun v hv => ?_, rfl, rfl⟩
  simp [dbUrl, hv]

/-- Concrete instance of `dbUrl_spec`: a non-empty environment value is
used verbatim. -/
theorem dbUrl_spec_witness :
    dbUrl (some "mongodb://db.example.com:27017/prod")
      = "mongodb://db.example.com:27017/prod" :=
  dbUrl_spec.1 "mongodb://db.example.com:27017/prod" (by decide)

/-! ### C8 — aggregation -/

theorem toArrayLoop_eq (l : List Document) :
    ∀ acc : List Document, toArrayLoop acc l = acc.reverse ++ l := by
  induction l with
  | nil => intro acc; simp [toArrayLoop]
  | cons d ds ih => intro acc; simp [toArrayLoop, ih]

/-- C8: `aggregate` returns exactly what the external engine produced — the
cursor is fully materialized by `toArray` into a finite list in the
engine's order with no reordering, and an execution failure is returned
unchanged. -/
theorem aggregate_spec (db : AggEnv) (collectionName : String) (pipeline : Pipeline) :
    aggregate db collectionName pipeline = db.runPipeline collectionName pipeline := by
  unfold aggregate
  cases h : db.runPipeline collectionName pipeline with
  | error e => rfl
  | ok cursor => simp [toArrayLoop_eq]

/-! ### Connection-manager characterization lemmas -/

theorem createClient_hit (env : ConnEnv) (s : ConnState) (url : String)
    (options : JsObj JsVal) (h : Handle) (hg : objGet s.clientCache url = some h) :
    createClient env s url options = (Except.ok h, s) := by
  simp [createClient, hg]

theorem createClient_miss_ok (env : ConnEnv) (s : ConnState) (url : String)
    (options : JsObj JsVal) (hg : objGet s.clientCache url = none)
    (hok : env.connectOk s.connectLog.length url = true) :
    createClient env s url options =
      (Except.ok ⟨s.nextObj + 1, s.nextSession, s.nextSession⟩,
        { clientCache :=
            objSet s.clientCache url ⟨s.nextObj, s.nextSession, s.nextSession⟩,
          nextObj := s.nextObj + 2,
          nextSession := s.nextSession + 1,
          connectLog := s.connectLog ++ [⟨url, connectionOpts options, true⟩] }) := by
  simp [createClient, hg, hok]

theorem createClient_miss_fail (env : ConnEnv) (s : ConnState) (url : String)
    (options : JsObj JsVal) (hg : objGet s.clientCache url = none)
    (hok : env.connectOk s.connectLog.length url = false) :
    createClient env s url options =
      (Except.error url,
        { s with connectLog := s.connectLog ++ [⟨url, connectionOpts options, false⟩] }) := by
  simp [createClient, hg, hok]

/-- A driver whose every connect attempt succeeds. -/
def envOk : ConnEnv := ⟨fun _ _ => true⟩

/-- A driver whose every connect attempt fails. -/
def envBad : ConnEnv := ⟨fun _ _ => false⟩

/-- A driver whose first connect attempt of the process fails and whose
later attempts succeed. -/
def envRetry : ConnEnv := ⟨fun n _ => n != 0⟩

/-- The module state after one successful `createClient envOk initState "a" []`:
address `"a"` cached with the first allocated handle object. -/
def stateA : ConnState :=
  { clientCache := [("a", ⟨0, 0, 0⟩)],
    nextObj := 2,
    nextSession := 1,
    connectLog :=
      [⟨"a", [("useNewUrlParser", JsVal.vBool true),
              ("useUnifiedTopology", JsVal.vBool true)], true⟩] }

/-! ### C1 — two calls in succession -/

/-- C1 counterexample: from the empty cache, the populating call returns the
handle literal with object id 1, while the second call returns the cached
literal with object id 0 — two distinct objects, so the second call does
not return the very same handle object the first call returned. -/
theorem createClient_twice_counterexample :
    (createClient envOk initState "a" []).1 = Except.ok ⟨1, 0, 0⟩ ∧
    (createClient envOk (createClient envOk initState "a" []).2 "a" []).1
      = Except.ok ⟨0, 0, 0⟩ ∧
    (⟨1, 0, 0⟩ : Handle) ≠ ⟨0, 0, 0⟩ := by
  refine ⟨rfl, rfl, by decide⟩

/-- C1 amended: after any successful `createClient` call, a second call with
the same address returns a handle with the identical underlying `client`
and `db` and leaves the module state untouched — no new session is opened.
The returned wrapper is the cached object: the very same object as the
first call's result when that call was itself a cache hit, but a distinct
object (with equal `client` and `db`) when the first call populated the
cache. -/
theorem createClient_twice (env : ConnEnv) (s : ConnState) (url : String)
    (o1 o2 : JsObj JsVal) (h1 : Handle) (s1 : ConnState)
    (hc : createClient env s url o1 = (Except.ok h1, s1)) :
    ∃ h2 : Handle, createClient env s1 url o2 = (Except.ok h2, s1) ∧
      h2.client = h1.client ∧ h2.db = h1.db := by
  cases hg : objGet s.clientCache url with
  | some h =>
    rw [createClient_hit env s url o1 h hg, Prod.mk.injEq] at hc
    obtain ⟨hh, hs⟩ := hc
    rw [Except.ok.injEq] at hh
    subst hh
    subst hs
    exact ⟨h, createClient_hit env s url o2 h hg, rfl, rfl⟩
  | none =>
    cases hok : env.connectOk s.connectLog.length url with
    | false =>
      rw [createClient_miss_fail env s url o1 hg hok, Prod.mk.injEq] at hc
      simp at hc
    | true =>
      rw [createClient_miss_ok env s url o1 hg hok, Prod.mk.injEq] at hc
      obtain ⟨hh, hs⟩ := hc
      rw [Except.ok.injEq] at hh
      subst hs
      refine ⟨⟨s.nextObj, s.nextSession, s.nextSession⟩,
        createClient_hit env _ url o2 _ (objGet_objSet_self s.clientCache url _),
        ?_, ?_⟩
      · rw [← hh]
      · rw [← hh]

/-- Concrete instance of `createClient_twice`: after the cold-start call on
`"a"`, the second call returns the cached handle over session 0 and leaves
the state unchanged. -/
theorem createClient_twice_witness :
    ∃ h2 : Handle, createClient envOk stateA "a" [] = (Except.ok h2, stateA) ∧
      h2.client = (⟨1, 0, 0⟩ : Handle).client ∧ h2.db = (⟨1, 0, 0⟩ : Handle).db :=
  createClient_twice envOk initState "a" [] [] ⟨1, 0, 0⟩ stateA rfl

/-! ### C9 — cached address ignores the options -/

/-- C9: once the cache holds a handle for a url, the options argument is
irrelevant: `createClient` with any two options values returns the same
result (same handle object, same state), so the handle stays configured
solely by the options of the call that populated the cache. -/
theorem createClient_options_ignored (env : ConnEnv) (s : ConnState)
    (url : String) (o1 o2 : JsObj JsVal) (h : Handle)
    (hg : objGet s.clientCache url = some h) :
    createClient env s url o1 = createClient env s url o2 := by
  rw [createClient_hit env s url o1 h hg, createClient_hit env s url o2 h hg]

/-- Concrete instance of `createClient_options_ignored`: with `"a"` cached,
passing a different options object changes nothing. -/
theorem createClient_options_ignored_witness :
    createClient envOk stateA "a" [("useUnifiedTopology", JsVal.vBool false)]
      = createClient envOk stateA "a" [] :=
  createClient_options_ignored envOk stateA "a" _ _ ⟨0, 0, 0⟩ rfl

/-! ### C3 — connect failure is not cached -/

theorem connectCallsFor_createClient_miss (env : ConnEnv) (s : ConnState)
    (url : String) (opts : JsObj JsVal)
    (hmiss : objGet s.clientCache url = none) :
    connectCallsFor (createClient env s url opts).2 url
      = connectCallsFor s url + 1 := by
  cases hok : env.connectOk s.connectLog.length url with
  | false =>
    rw [createClient_miss_fail env s url opts hmiss hok]
    simp [connectCallsFor, List.filter_append]
  | true =>
    rw [createClient_miss_ok env s url opts hmiss hok]
    simp [connectCallsFor, List.filter_append]

/-- C3: on a cache miss whose connect attempt fails, `createClient` rejects
with the propagated failure and stores nothing — the Connection Cache is
exactly what it was — and a subsequent call with the same address misses
the cache again and issues a fresh `MongoClient.connect` attempt instead
of returning a poisoned handle. -/
theorem createClient_failure (env : ConnEnv) (s : ConnState) (url : String)
    (opts opts2 : JsObj JsVal)
    (hmiss : objGet s.clientCache url = none)
    (hfail : env.connectOk s.connectLog.length url = false) :
    (createClient env s url opts).1 = Except.error url ∧
    (createClient env s url opts).2.clientCache = s.clientCache ∧
    connectCallsFor (createClient env (createClient env s url opts).2 url opts2).2 url
      = connectCallsFor (createClient env s url opts).2 url + 1 := by
  have hstep := createClient_miss_fail env s url opts hmiss hfail
  refine ⟨by rw [hstep], by rw [hstep], ?_⟩
  apply connectCallsFor_createClient_miss
  rw [hstep]
  exact hmiss

/-- Concrete instance of `createClient_failure`: against an unreachable
endpoint the first call errors, caches nothing, and the retry attempts a
new connect. -/
theorem createClient_failure_witness :
    (createClient envBad initState "a" []).1 = Except.error "a" ∧
    (createClient envBad initState "a" []).2.clientCache = initState.clientCache ∧
    connectCallsFor (createClient envBad (createClient envBad initState "a" []).2 "a" []).2 "a"
      = connectCallsFor (createClient envBad initState "a" []).2 "a" + 1 :=
  createClient_failure envBad initState "a" [] [] rfl rfl

/-! ### C4 — sequential, fail-fast drops -/

/-- The drop oracle used for concrete instances: dropping `subscription`
fails, every other drop succeeds. -/
def dropEnvA : DropEnv := ⟨fun c => c != "subscription"⟩

/-- C4: `dropResourceCollections` walks the names in sequence order.  When
every name before `c` drops successfully and dropping `c` fails, the
function rejects with that failure, the names after `c` are never
attempted, and the completed drops are exactly the names strictly before
`c`, in order.  When every drop succeeds, the whole list is dropped in
order. -/
theorem dropResourceCollections_spec (env : DropEnv) (pre post : List String)
    (c : String) (hpre : ∀ x ∈ pre, env.dropOk x = true)
    (hc : env.dropOk c = false) :
    dropResourceCollections env (pre ++ c :: post) = (Except.error c, pre) ∧
    ∀ l : List String, (∀ x ∈ l, env.dropOk x = true) →
      dropResourceCollections env l = (Except.ok (), l) := by
  have hall : ∀ l : List String, (∀ x ∈ l, env.dropOk x = true) →
      dropResourceCollections env l = (Except.ok (), l) := by
    intro l
    induction l with
    | nil => intro _; rfl
    | cons x xs ih =>
      intro hl
      have hx : env.dropOk x = true := hl x (by simp)
      have hxs := ih (fun y hy => hl y (by simp [hy]))
      simp [dropResourceCollections, hx, hxs]
  refine ⟨?_, hall⟩
  clear hall
  revert hpre
  induction pre with
  | nil => intro _; simp [dropResourceCollections, hc]
  | cons x xs ih =>
    intro hpre
    have hx : env.dropOk x = true := hpre x (by simp)
    have ihx := ih (fun y hy => hpre y (by simp [hy]))
    simp [dropResourceCollections, hx, ihx]

/-- Concrete instance of `dropResourceCollections_spec`: with the
`subscription` drop failing, `member` and `coach` are dropped, the error
propagates, and `plan` is never attempted. -/
theorem dropResourceCollections_spec_witness :
    dropResourceCollections dropEnvA
        (["member", "coach"] ++ "subscription" :: ["plan"])
      = (Except.error "subscription", ["member", "coach"]) :=
  (dropResourceCollections_spec dropEnvA ["member", "coach"] ["plan"]
    "subscription" (by decide) (by decide)).1

/-! ### C2 — one session per address, no duplicate cache entries -/

/-- The state invariant maintained by `createClient`: the cache keys are
pairwise distinct, and the number of sessions opened for an address is 1
when the address is cached and 0 otherwise. -/
def connInv (s : ConnState) : Prop :=
  (cacheKeys s).Nodup ∧
  ∀ u : String,
    sessionsOpened s u = if (objGet s.clientCache u).isSome then 1 else 0

theorem connInv_init : connInv initState := by
  refine ⟨by simp [cacheKeys, initState], fun u => ?_⟩
  simp [sessionsOpened, initState, objGet]

theorem connInv_step (env : ConnEnv) (s : ConnState) (url : String)
    (opts : JsObj JsVal) (h : connInv s) :
    connInv (createClient env s url opts).2 := by
  obtain ⟨hnd, hses⟩ := h
  cases hg : objGet s.clientCache url with
  | some hdl =>
    rw [createClient_hit env s url opts hdl hg]
    exact ⟨hnd, hses⟩
  | none =>
    cases hok : env.connectOk s.connectLog.length url with
    | false =>
      rw [createClient_miss_fail env s url opts hg hok]
      refine ⟨hnd, fun u => ?_⟩
      simpa [sessionsOpened, List.filter_append] using hses u
    | true =>
      rw [createClient_miss_ok env s url opts hg hok]
      have hkeys := objSet_keys_of_none s.clientCache url
        ⟨s.nextObj, s.nextSession, s.nextSession⟩ hg
      have hnotmem := objGet_none_not_mem s.clientCache url hg
      have hnm : ∀ x : Handle, (url, x) ∉ s.clientCache := by
        intro x hx
        exact hnotmem (List.mem_map_of_mem Prod.fst hx)
      constructor
      · simpa [cacheKeys, hkeys, List.nodup_append] using ⟨hnd, hnm⟩
      · intro u
        by_cases hu : u = url
        · subst hu
          have h0 : sessionsOpened s u = 0 := by simpa [hg] using hses u
          have hbeq : (u == u) = true := by simp
          simp only [sessionsOpened] at h0
          simp [sessionsOpened, List.filter_append, List.filter, hbeq,
            objGet_objSet_self, h0]
        · have hbeq : (url == u) = false := by
            simp [beq_eq_false_iff_ne, Ne.symm hu]
          have := hses u
          simp only [sessionsOpened] at this
          simp [sessionsOpened, List.filter_append, List.filter, hbeq,
            objGet_objSet_other _ _ _ _ hu, this]

theorem connInv_run (env : ConnEnv) (calls : List (String × JsObj JsVal))
    (s : ConnState) (h : connInv s) : connInv (runCreateClients env s calls) := by
  induction calls generalizing s with
  | nil => exact h
  | cons c rest ih =>
    obtain ⟨url, opts⟩ := c
    exact ih _ (connInv_step env s url opts h)

/-- C2 counterexample: when the first connect attempt for `"a"` fails and
the retry succeeds, two `MongoClient.connect` calls are made for the single
address `"a"` — refuting "one MongoClient.connect call is made per distinct
address" — while still only one session is opened. -/
theorem connect_per_address_counterexample :
    connectCallsFor (runCreateClients envRetry initState [("a", []), ("a", [])]) "a"
      = 2 ∧
    sessionsOpened (runCreateClients envRetry initState [("a", []), ("a", [])]) "a"
      = 1 := by
  constructor <;> rfl

/-- C2 amended: over any sequence of `createClient` calls from process
start, the Connection Cache never holds two entries for the same address,
and at most one session is opened (at most one successful
`MongoClient.connect` call) per distinct address — though a failed connect
may be followed by a retry, so the total number of connect calls for an
address can exceed one. -/
theorem clientCache_single_session (env : ConnEnv)
    (calls : List (String × JsObj JsVal)) :
    (cacheKeys (runCreateClients env initState calls)).Nodup ∧
    ∀ u : String, sessionsOpened (runCreateClients env initState calls) u ≤ 1 := by
  obtain ⟨h1, h2⟩ := connInv_run env calls initState connInv_init
  refine ⟨h1, fun u => ?_⟩
  rw [h2 u]
  split <;> simp

end Blog
